import Mathlib

/-!
Shallow embedding of the healthcare spend dashboard's aggregation and
filtering core (`src/utils/data_processing.py`, `src/utils/charts.py`,
`src/app.py`).  Transactions are modelled as a record type, tables as
lists of records, monetary amounts as rationals, and calendar dates as
proleptic-Gregorian ordinals (the day-count used by Python's
`date.toordinal`, so date differences match `pd.Timestamp` arithmetic
at day precision; the dataset's dates carry no time component).
-/

namespace Dashboard

/-! ### Calendar dates -/

/-- Gregorian leap-year test. -/
def isLeapYear (y : Nat) : Bool :=
  (y % 4 == 0 && y % 100 != 0) || y % 400 == 0

/-- Number of days in month `m` (1..12) of year `y`. -/
def daysInMonth (y m : Nat) : Nat :=
  if m = 2 then (if isLeapYear y then 29 else 28)
  else if m = 4 ∨ m = 6 ∨ m = 9 ∨ m = 11 then 30
  else 31

/-- Days in year `y` strictly before month `m`. -/
def daysBeforeMonth (y m : Nat) : Nat :=
  ((List.range (m - 1)).map (fun i => daysInMonth y (i + 1))).sum

/-- Proleptic-Gregorian ordinal of the date `y-m-d` (day 1 is 0001-01-01),
the same day numbering as Python's `date.toordinal`. -/
def toOrdinal (y m d : Nat) : Nat :=
  365 * (y - 1) + (y - 1) / 4 - (y - 1) / 100 + (y - 1) / 400
    + daysBeforeMonth y m + d

/-! ### Data model -/

/-- One procurement transaction: the twelve-column row schema of the
loaded table (`EXPECTED_COLUMNS` in `data_processing.py`). -/
structure Row where
  transaction_id : String
  transaction_date : Nat
  facility_name : String
  department : String
  spend_category : String
  vendor_name : String
  product_description : String
  unit_price : Rat
  quantity : Nat
  total_amount : Rat
  contract_type : String
  ppi_flag : Bool
deriving DecidableEq, Repr

/-- Sidebar facet selections, the optional keyword arguments of
`apply_filters`.  `none` is Python's `None`; a `some []` membership facet
is Python's empty multiselect list. -/
structure FilterSelection where
  date_range : Option (Nat × Nat)
  facilities : Option (List String)
  categories : Option (List String)
  vendors : Option (List String)
  contract_types : Option (List String)
  ppi_only : Bool
deriving DecidableEq, Repr

/-! ### Filter engine (`apply_filters`) -/

/-- The date-range stage of `apply_filters`: on `None` the table passes
through, otherwise rows are kept when the date lies in the closed
interval `[start, end]`. -/
def dateFacet (sel : Option (Nat × Nat)) (rows : List Row) : List Row :=
  match sel with
  | none => rows
  | some (s, e) =>
      rows.filter (fun r =>
        decide (s ≤ r.transaction_date) && decide (r.transaction_date ≤ e))

/-- One membership stage of `apply_filters`: Python's `if facilities:`
treats both `None` and the empty list as inactive, otherwise rows are
kept when `field` is `.isin` the selection. -/
def memberFacet (sel : Option (List String)) (field : Row → String)
    (rows : List Row) : List Row :=
  match sel with
  | none => rows
  | some [] => rows
  | some (s :: ss) => rows.filter (fun r => (s :: ss).contains (field r))

/-- The `ppi_only` stage of `apply_filters`: when the toggle is on, keep
rows whose `ppi_flag` is true. -/
def ppiFacet (only : Bool) (rows : List Row) : List Row :=
  if only then rows.filter (fun r => r.ppi_flag) else rows

/-- `apply_filters` from `data_processing.py`: the six facet stages
applied in source order (date range, facilities, categories, vendors,
contract types, PPI toggle). -/
def apply_filters (df : List Row) (f : FilterSelection) : List Row :=
  ppiFacet f.ppi_only
    (memberFacet f.contract_types Row.contract_type
      (memberFacet f.vendors Row.vendor_name
        (memberFacet f.categories Row.spend_category
          (memberFacet f.facilities Row.facility_name
            (dateFacet f.date_range df)))))

/-- Predicate form of the date-range facet: vacuously true when the
facet is inactive. -/
def datePred (sel : Option (Nat × Nat)) (r : Row) : Bool :=
  match sel with
  | none => true
  | some (s, e) =>
      decide (s ≤ r.transaction_date) && decide (r.transaction_date ≤ e)

/-- Predicate form of a membership facet: vacuously true when the facet
is `None` or empty. -/
def memberPred (sel : Option (List String)) (field : Row → String)
    (r : Row) : Bool :=
  match sel with
  | none => true
  | some [] => true
  | some (s :: ss) => (s :: ss).contains (field r)

/-- Predicate form of the PPI toggle. -/
def ppiPred (only : Bool) (r : Row) : Bool :=
  !only || r.ppi_flag

/-- A row satisfies a facet selection when it passes every active facet
predicate (the conjunction semantics of §4.2 of the spec). -/
def rowSatisfies (f : FilterSelection) (r : Row) : Bool :=
  datePred f.date_range r
    && (memberPred f.facilities Row.facility_name r
      && (memberPred f.categories Row.spend_category r
        && (memberPred f.vendors Row.vendor_name r
          && (memberPred f.contract_types Row.contract_type r
            && ppiPred f.ppi_only r))))

theorem filter_comp {α : Type} (p q : α → Bool) (l : List α) :
    (l.filter p).filter q = l.filter (fun a => p a && q a) := by
  induction l with
  | nil => rfl
  | cons a t ih =>
      by_cases h : p a = true <;> by_cases h' : q a = true <;>
        simp [List.filter_cons, h, h', ih]

theorem dateFacet_eq_filter (sel : Option (Nat × Nat)) (rows : List Row) :
    dateFacet sel rows = rows.filter (datePred sel) := by
  match sel with
  | none =>
      show rows = rows.filter (datePred none)
      rw [show datePred none = fun _ => true from rfl, List.filter_true]
  | some (s, e) => rfl

theorem memberFacet_eq_filter (sel : Option (List String))
    (field : Row → String) (rows : List Row) :
    memberFacet sel field rows = rows.filter (memberPred sel field) := by
  match sel with
  | none =>
      show rows = rows.filter (memberPred none field)
      rw [show memberPred none field = fun _ => true from rfl, List.filter_true]
  | some [] =>
      show rows = rows.filter (memberPred (some []) field)
      rw [show memberPred (some []) field = fun _ => true from rfl,
        List.filter_true]
  | some (s :: ss) => rfl

theorem ppiFacet_eq_filter (only : Bool) (rows : List Row) :
    ppiFacet only rows = rows.filter (ppiPred only) := by
  match only with
  | true => rfl
  | false =>
      show rows = rows.filter (ppiPred false)
      rw [show ppiPred false = fun _ => true from rfl, List.filter_true]

/-- The six filter stages collapse to one pass with the conjunction of
the active facet predicates. -/
theorem apply_filters_eq_filter (df : List Row) (f : FilterSelection) :
    apply_filters df f = df.filter (rowSatisfies f) := by
  unfold apply_filters
  rw [dateFacet_eq_filter, memberFacet_eq_filter, memberFacet_eq_filter,
    memberFacet_eq_filter, memberFacet_eq_filter, ppiFacet_eq_filter,
    filter_comp, filter_comp, filter_comp, filter_comp, filter_comp]
  rfl

/-- A concrete transaction for witness instantiations. -/
def sampleRow : Row :=
  { transaction_id := "TXN-000001"
    transaction_date := toOrdinal 2024 3 15
    facility_name := "Memorial Hospital"
    department := "Orthopedics"
    spend_category := "Orthopedics"
    vendor_name := "MedSupply Co"
    product_description := "Hip implant"
    unit_price := 5000
    quantity := 2
    total_amount := 10000
    contract_type := "GPO"
    ppi_flag := true }

/-- C2: `apply_filters` fabricates no rows, every retained row passes
every active facet predicate, and every row of the input that is not
retained fails at least one active facet predicate (its conjunction
`rowSatisfies` is false). -/
theorem apply_filters_sound_and_complete (df : List Row)
    (f : FilterSelection) :
    (∀ r, r ∈ apply_filters df f → r ∈ df ∧ rowSatisfies f r = true) ∧
    (∀ r, r ∈ df → r ∉ apply_filters df f → rowSatisfies f r = false) := by
  constructor
  · intro r hr
    rw [apply_filters_eq_filter] at hr
    exact List.mem_filter.mp hr
  · intro r hmem hnot
    rw [apply_filters_eq_filter] at hnot
    by_contra h
    exact hnot (List.mem_filter.mpr ⟨hmem, eq_true_of_ne_false h⟩)

/-- C5: with the date range `None`, every membership facet `None` or the
empty list, and the PPI toggle off, `apply_filters` is the identity. -/
theorem apply_filters_identity (df : List Row) (f : FilterSelection)
    (hd : f.date_range = none)
    (hf : f.facilities = none ∨ f.facilities = some [])
    (hc : f.categories = none ∨ f.categories = some [])
    (hv : f.vendors = none ∨ f.vendors = some [])
    (hct : f.contract_types = none ∨ f.contract_types = some [])
    (hp : f.ppi_only = false) :
    apply_filters df f = df := by
  have hm : ∀ (sel : Option (List String)) (field : Row → String)
      (rows : List Row), sel = none ∨ sel = some [] →
      memberFacet sel field rows = rows := by
    rintro sel field rows (rfl | rfl) <;> rfl
  unfold apply_filters
  rw [hd, hp, hm _ _ _ hf, hm _ _ _ hc, hm _ _ _ hv, hm _ _ _ hct]
  rfl

/-- Witness for C5 at a one-row table with a mixed all-inactive
selection. -/
theorem apply_filters_identity_witness :
    apply_filters [sampleRow]
      ⟨none, none, some [], none, some [], false⟩ = [sampleRow] :=
  apply_filters_identity [sampleRow] _ rfl (Or.inl rfl) (Or.inr rfl)
    (Or.inl rfl) (Or.inr rfl) rfl

/-- C9: applying the same facet selection twice changes nothing beyond
the first application. -/
theorem apply_filters_idempotent (df : List Row) (f : FilterSelection) :
    apply_filters (apply_filters df f) f = apply_filters df f := by
  rw [apply_filters_eq_filter, apply_filters_eq_filter df, filter_comp]
  exact List.filter_congr fun r _ => by rw [Bool.and_self]

/-- C10: the filtered table is a sublist of the input: retained rows keep
their relative order and no row occurrence is duplicated. -/
theorem apply_filters_sublist (df : List Row) (f : FilterSelection) :
    List.Sublist (apply_filters df f) df := by
  rw [apply_filters_eq_filter]
  exact List.filter_sublist df

/-! ### KPI calculator (`calculate_kpis`) -/

/-- The five-scalar KPI snapshot returned by `calculate_kpis`. -/
structure KPIs where
  total_spend : Rat
  transaction_count : Nat
  unique_vendors : Nat
  ppi_spend_pct : Rat
  avg_transaction : Rat
deriving DecidableEq, Repr

/-- Sum of `total_amount` over a table (`df["total_amount"].sum()`). -/
def totalSpend (df : List Row) : Rat :=
  (df.map Row.total_amount).sum

/-- Sum of `total_amount` over the PPI-flagged rows
(`df.loc[df["ppi_flag"], "total_amount"].sum()`). -/
def ppiSpend (df : List Row) : Rat :=
  ((df.filter Row.ppi_flag).map Row.total_amount).sum

/-- `calculate_kpis` from `data_processing.py`: both percentage and
average guard their zero denominator with the source's `> 0` tests and
fall back to `0.0`. -/
def calculate_kpis (df : List Row) : KPIs :=
  { total_spend := totalSpend df
    transaction_count := df.length
    unique_vendors := ((df.map Row.vendor_name).dedup).length
    ppi_spend_pct :=
      if totalSpend df > 0 then ppiSpend df / totalSpend df * 100 else 0
    avg_transaction :=
      if df.length > 0 then totalSpend df / (df.length : Rat) else 0 }

/-- C3: on the empty table `calculate_kpis` returns exactly the all-zero
snapshot, and on every table the two guarded ratios fall back to `0.0`
when their denominator is not positive — the function is total, so no
input can raise. -/
theorem calculate_kpis_empty_and_guards :
    calculate_kpis [] =
      { total_spend := 0, transaction_count := 0, unique_vendors := 0
        ppi_spend_pct := 0, avg_transaction := 0 } ∧
    ∀ df : List Row,
      (¬ totalSpend df > 0 → (calculate_kpis df).ppi_spend_pct = 0) ∧
      ((calculate_kpis df).transaction_count = 0 →
        (calculate_kpis df).avg_transaction = 0) := by
  refine ⟨by decide, fun df => ⟨fun h => ?_, fun h => ?_⟩⟩
  · simp [calculate_kpis, h]
  · have hlen : df.length = 0 := h
    simp [calculate_kpis, hlen]

/-! ### Prior-period calculator (`calculate_prior_period`) -/

/-- The prior-window arithmetic of `calculate_prior_period`:
`duration = current_end - current_start` (a `Timedelta` of
end-minus-start days), `prior_end = current_start - 1 day`,
`prior_start = prior_end - duration`. -/
def priorWindow (current_start current_end : Nat) : Nat × Nat :=
  let duration := current_end - current_start
  let prior_end := current_start - 1
  (prior_end - duration, prior_end)

/-- `calculate_prior_period` from `data_processing.py`: restrict the
full table to the inclusive prior window and recompute the KPIs. -/
def calculate_prior_period (df_full : List Row)
    (current_start current_end : Nat) : KPIs :=
  let w := priorWindow current_start current_end
  calculate_kpis (df_full.filter (fun r =>
    decide (w.1 ≤ r.transaction_date) && decide (r.transaction_date ≤ w.2)))

/-- Counterexample to C1: for the current range 2024-03-01..2024-03-31
the computed prior window does NOT start at 2024-01-29 — that interval
would span 32 days, not 31. -/
theorem priorWindow_march2024_not_jan29 :
    priorWindow (toOrdinal 2024 3 1) (toOrdinal 2024 3 31) ≠
      (toOrdinal 2024 1 29, toOrdinal 2024 2 29) ∧
    toOrdinal 2024 2 29 - toOrdinal 2024 1 29 + 1 = 32 := by
  decide

/-- C1 (amended): for the current range 2024-03-01..2024-03-31 the
prior window is the inclusive interval 2024-01-30..2024-02-29:
`duration` is the exclusive difference `current_end - current_start`
(30 days), `prior_end` is the day before `current_start` (the leap day
2024-02-29), and the window has the same inclusive span of 31 days as
the current range. -/
theorem priorWindow_march2024 :
    priorWindow (toOrdinal 2024 3 1) (toOrdinal 2024 3 31) =
      (toOrdinal 2024 1 30, toOrdinal 2024 2 29) ∧
    toOrdinal 2024 3 31 - toOrdinal 2024 3 1 = 30 ∧
    toOrdinal 2024 2 29 + 1 = toOrdinal 2024 3 1 ∧
    toOrdinal 2024 2 29 - toOrdinal 2024 1 30 + 1 =
      toOrdinal 2024 3 31 - toOrdinal 2024 3 1 + 1 ∧
    isLeapYear 2024 = true ∧ daysInMonth 2024 2 = 29 := by
  decide

/-! ### Delta formatting (`_format_delta` in `app.py`) -/

/-- Round a rational to the nearest integer, ties to even (the rounding
of Python's fixed-point string formatting). -/
def roundHalfEven (q : Rat) : Int :=
  let f := ⌊q⌋
  if q - f > 1 / 2 then f + 1
  else if q - f < 1 / 2 then f
  else if f % 2 = 0 then f else f + 1

/-- Decimal rendering of a rational with one fractional digit, as
Python's `f"{x:.1f}"` renders the percentage. -/
def formatTenths (x : Rat) : String :=
  let n := roundHalfEven (x * 10)
  let sign := if n < 0 then "-" else ""
  sign ++ toString (n.natAbs / 10) ++ "." ++ toString (n.natAbs % 10)

/-- `_format_delta` from `app.py`: percentage change against the prior
value with its CSS class, and the em-dash "no data" sentinel when the
prior value is exactly zero. -/
def format_delta (current prior : Rat) : String × String :=
  if prior = 0 then ("—", "neutral")
  else
    let pct_change := (current - prior) / prior * 100
    if pct_change > 0 then ("+" ++ formatTenths pct_change ++ "%", "positive")
    else if pct_change < 0 then (formatTenths pct_change ++ "%", "negative")
    else ("0.0%", "neutral")

theorem roundHalfEven_intCast (n : Int) : roundHalfEven (n : Rat) = n := by
  unfold roundHalfEven
  norm_num

theorem formatTenths_pos20 : formatTenths 20 = "20.0" := by
  have h : (20 : Rat) * 10 = ((200 : Int) : Rat) := by norm_num
  unfold formatTenths
  rw [h, roundHalfEven_intCast]
  rfl

theorem formatTenths_neg20 : formatTenths (-20) = "-20.0" := by
  have h : (-20 : Rat) * 10 = ((-200 : Int) : Rat) := by norm_num
  unfold formatTenths
  rw [h, roundHalfEven_intCast]
  rfl

/-- C7: the delta formatter renders (current − prior) / prior × 100 with
the positive class for 120 vs 100 as "+20.0%", the negative class for
80 vs 100 as "-20.0%", and for every current value it returns the
neutral "no data" sentinel when the prior value is exactly zero. -/
theorem format_delta_spec :
    (∀ x : Rat, format_delta x 0 = ("—", "neutral")) ∧
    format_delta 120 100 = ("+20.0%", "positive") ∧
    format_delta 80 100 = ("-20.0%", "negative") := by
  have h0 : ¬ ((100 : Rat) = 0) := by norm_num
  refine ⟨fun x => by simp [format_delta], ?_, ?_⟩
  · have hp : ((120 : Rat) - 100) / 100 * 100 = 20 := by norm_num
    simp only [format_delta]
    rw [if_neg h0]
    simp only [hp]
    rw [if_pos (by norm_num : (20 : Rat) > 0), formatTenths_pos20]
    rfl
  · have hp : ((80 : Rat) - 100) / 100 * 100 = -20 := by norm_num
    simp only [format_delta]
    rw [if_neg h0]
    simp only [hp]
    rw [if_neg (by norm_num : ¬ ((-20 : Rat) > 0)),
      if_pos (by norm_num : (-20 : Rat) < 0), formatTenths_neg20]
    rfl

/-! ### Loader (`load_data`) -/

/-- The twelve-column schema required by the loader. -/
def EXPECTED_COLUMNS : List String :=
  ["transaction_id", "transaction_date", "facility_name", "department",
   "spend_category", "vendor_name", "product_description", "unit_price",
   "quantity", "total_amount", "contract_type", "ppi_flag"]

/-- A raw CSV table as the loader sees it right after parsing: its
header columns and its parsed rows. -/
structure RawTable where
  columns : List String
  rows : List Row
deriving DecidableEq, Repr

/-- The loader's two failure signals: `FileNotFoundError` when the data
file is absent, and the schema `ValueError` carrying the missing column
names. -/
inductive LoadError where
  | fileNotFound : LoadError
  | missingColumns : List String → LoadError
deriving DecidableEq, Repr

/-- The expected columns absent from a header (the loader's
`set(EXPECTED_COLUMNS) - set(df.columns)`, listed in schema order). -/
def missingFrom (cols : List String) : List String :=
  EXPECTED_COLUMNS.filter (fun c => !cols.contains c)

/-- `load_data` from `data_processing.py`, with the filesystem modelled
as an `Option`: `none` is an absent data file, `some t` an existing file
parsed into table `t`.  Existence is checked first, then the schema. -/
def load_data (file : Option RawTable) : Except LoadError RawTable :=
  match file with
  | none => Except.error LoadError.fileNotFound
  | some t =>
      if (missingFrom t.columns).isEmpty then Except.ok t
      else Except.error (LoadError.missingColumns (missingFrom t.columns))

/-- C6: the loader fails with the not-found error exactly when the file
is absent; for an existing file it fails with the schema error listing
exactly the expected columns absent from the header precisely when at
least one is absent, and succeeds (neither error) when all twelve are
present. -/
theorem load_data_spec (file : Option RawTable) :
    (load_data file = Except.error LoadError.fileNotFound ↔ file = none) ∧
    (∀ t, file = some t →
      (((∃ c, c ∈ EXPECTED_COLUMNS ∧ c ∉ t.columns) →
        load_data file =
          Except.error (LoadError.missingColumns (missingFrom t.columns)) ∧
        missingFrom t.columns ≠ [] ∧
        (∀ c, c ∈ missingFrom t.columns ↔
          c ∈ EXPECTED_COLUMNS ∧ c ∉ t.columns)) ∧
      ((∀ c, c ∈ EXPECTED_COLUMNS → c ∈ t.columns) →
        load_data file = Except.ok t))) := by
  have hmem : ∀ (t : RawTable) (c : String),
      c ∈ missingFrom t.columns ↔ c ∈ EXPECTED_COLUMNS ∧ c ∉ t.columns := by
    intro t c
    simp [missingFrom, List.mem_filter]
  constructor
  · match file with
    | none => simp [load_data]
    | some t =>
        simp only [load_data]
        by_cases h : (missingFrom t.columns).isEmpty <;> simp [h]
  · rintro t rfl
    constructor
    · rintro ⟨c, hc, hnc⟩
      have hne : missingFrom t.columns ≠ [] :=
        List.ne_nil_of_mem ((hmem t c).mpr ⟨hc, hnc⟩)
      have hfalse : (missingFrom t.columns).isEmpty = false := by
        simpa [List.isEmpty_iff] using hne
      exact ⟨by simp [load_data, hfalse], hne, hmem t⟩
    · intro hall
      have hnil : missingFrom t.columns = [] := by
        rw [List.eq_nil_iff_forall_not_mem]
        intro c hc
        rcases (hmem t c).mp hc with ⟨hc1, hc2⟩
        exact hc2 (hall c hc1)
      simp [load_data, hnil]

/-! ### Chart builders (`charts.py`): grouped sums -/

/-- Rows of one spend category (`df[df["spend_category"] == c]`). -/
def catRows (df : List Row) (c : String) : List Row :=
  df.filter (fun r => r.spend_category == c)

/-- Distinct categories in pandas `groupby` key order (sorted
ascending). -/
def categoriesOf (df : List Row) : List String :=
  ((df.map Row.spend_category).dedup).mergeSort (fun a b => decide (a ≤ b))

/-- Total spend of one category. -/
def catTotalSpend (df : List Row) (c : String) : Rat :=
  totalSpend (catRows df c)

/-- Spend of one category in one contract type (one group of the
`groupby(["spend_category", "contract_type"])` sum). -/
def ctSpend (df : List Row) (c ct : String) : Rat :=
  totalSpend ((catRows df c).filter (fun r => r.contract_type == ct))

/-- Off-contract spend of one category. -/
def catOffContractSpend (df : List Row) (c : String) : Rat :=
  ctSpend df c "Off-Contract"

/-- Off-contract percentage of one category
(`off_contract_spend / total_category_spend * 100`). -/
def offContractPct (df : List Row) (c : String) : Rat :=
  catOffContractSpend df c / catTotalSpend df c * 100

/-- Distinct contract types occurring within one category, in first
occurrence order. -/
def contractTypesOf (df : List Row) (c : String) : List String :=
  ((catRows df c).map Row.contract_type).dedup

/-- Contract-type share of one category
(`cat_contract["total_amount"] / cat_totals * 100`). -/
def ctPct (df : List Row) (c ct : String) : Rat :=
  ctSpend df c ct / catTotalSpend df c * 100

/-- Category display order of the contract-mix chart: ascending by
category total spend (`sort_values(ascending=True)`). -/
def catOrder (df : List Row) : List String :=
  ((df.map Row.spend_category).dedup).mergeSort
    (fun a b => decide (catTotalSpend df a ≤ catTotalSpend df b))

/-- The table shape behind `contract_type_by_category`: per category the
list of (contract type, percentage of that category's spend), plus the
ascending-by-total category order of the axis. -/
def contract_type_by_category (df : List Row) :
    List (String × List (String × Rat)) × List String :=
  ((categoriesOf df).map (fun c =>
      (c, (contractTypesOf df c).map (fun ct => (ct, ctPct df c ct)))),
    catOrder df)

/-- One output row of the off-contract opportunity table. -/
structure OppRow where
  spend_category : String
  total_category_spend : Rat
  off_contract_spend : Rat
  off_contract_pct : Rat
deriving DecidableEq, Repr

/-- `off_contract_opportunities` from `charts.py`: per category the
total spend, off-contract spend and off-contract percentage; keep the
categories with percentage strictly above 20 and sort them descending
by that percentage. -/
def off_contract_opportunities (df : List Row) : List OppRow :=
  (((categoriesOf df).map (fun c =>
      OppRow.mk c (catTotalSpend df c) (catOffContractSpend df c)
        (offContractPct df c))).filter
    (fun o => decide (o.off_contract_pct > 20))).mergeSort
    (fun a b => decide (b.off_contract_pct ≤ a.off_contract_pct))

theorem sum_map_indicator {K : List String} (hK : K.Nodup) {x : String}
    (hx : x ∈ K) (v : Rat) :
    (K.map (fun k => if x == k then v else 0)).sum = v := by
  induction K with
  | nil => cases hx
  | cons k ks ih =>
      rcases List.mem_cons.mp hx with rfl | hx'
      · have hnot : x ∉ ks := (List.nodup_cons.mp hK).1
        have hz : (ks.map (fun k => if x == k then v else 0)).sum = 0 := by
          apply List.sum_eq_zero
          intro y hy
          rcases List.mem_map.mp hy with ⟨k', hk', rfl⟩
          have hne : x ≠ k' := by
            rintro rfl
            exact hnot hk'
          simp [hne]
        simp only [List.map_cons, List.sum_cons]
        rw [if_pos (by simp : (x == x) = true), hz, add_zero]
      · have hne : x ≠ k := by
          rintro rfl
          exact (List.nodup_cons.mp hK).1 hx'
        have hih := ih (List.nodup_cons.mp hK).2 hx'
        simp only [List.map_cons, List.sum_cons]
        rw [if_neg (by simp [hne] : ¬ (x == k) = true), zero_add, hih]

/-- Summing each fiber of a grouping key over a duplicate-free cover of
the keys recovers the ungrouped sum. -/
theorem fiber_sum (key : Row → String) (val : Row → Rat) :
    ∀ (l : List Row) (K : List String), K.Nodup →
      (∀ r, r ∈ l → key r ∈ K) →
      (K.map (fun k => ((l.filter (fun r => key r == k)).map val).sum)).sum
        = (l.map val).sum := by
  intro l
  induction l with
  | nil => intro K _ _; simp
  | cons r t ih =>
      intro K hK hcov
      have hsplit : ∀ k : String,
          (((r :: t).filter (fun s => key s == k)).map val).sum
            = (if key r == k then val r else 0)
              + ((t.filter (fun s => key s == k)).map val).sum := by
        intro k
        by_cases h : (key r == k) = true <;> simp [List.filter_cons, h]
      simp only [hsplit]
      rw [List.sum_map_add, sum_map_indicator hK (hcov r (List.mem_cons_self r t)),
        ih K hK (fun s hs => hcov s (List.mem_cons_of_mem r hs))]
      simp

/-- C4: the opportunity table holds exactly the categories whose
off-contract share strictly exceeds 20 percent, each with its total
spend, off-contract spend and percentage; the rows are sorted descending
by percentage; and a category with zero off-contract spend has share 0
(hence is excluded by the strict threshold). -/
theorem off_contract_opportunities_spec (df : List Row) :
    (∀ o, o ∈ off_contract_opportunities df ↔
      ∃ c, c ∈ categoriesOf df ∧ offContractPct df c > 20 ∧
        o = OppRow.mk c (catTotalSpend df c) (catOffContractSpend df c)
          (offContractPct df c)) ∧
    List.Pairwise (fun a b : OppRow => b.off_contract_pct ≤ a.off_contract_pct)
      (off_contract_opportunities df) ∧
    (∀ c, catOffContractSpend df c = 0 → offContractPct df c = 0) := by
  refine ⟨fun o => ?_, ?_, fun c h => ?_⟩
  · simp only [off_contract_opportunities, List.mem_mergeSort,
      List.mem_filter, List.mem_map, decide_eq_true_iff]
    constructor
    · rintro ⟨⟨c, hc, rfl⟩, hgt⟩
      exact ⟨c, hc, hgt, rfl⟩
    · rintro ⟨c, hc, hgt, rfl⟩
      exact ⟨⟨c, hc, rfl⟩, hgt⟩
  · have h := @List.sorted_mergeSort OppRow
      (fun a b : OppRow => decide (b.off_contract_pct ≤ a.off_contract_pct))
      (fun a b c hab hbc => by
        simp only [decide_eq_true_iff] at *
        exact le_trans hbc hab)
      (fun a b => by
        rcases le_total b.off_contract_pct a.off_contract_pct with h | h <;>
          simp [h])
      (((categoriesOf df).map (fun c =>
        OppRow.mk c (catTotalSpend df c) (catOffContractSpend df c)
          (offContractPct df c))).filter
        (fun o => decide (o.off_contract_pct > 20)))
    exact h.imp (fun hab => decide_eq_true_iff.mp hab)
  · simp [offContractPct, h]

/-- C8: in the contract-mix chart every category with positive total
spend has contract-type percentages summing to exactly 100, and the
category axis is ordered ascending by category total spend (a
permutation of the distinct categories). -/
theorem contract_type_by_category_spec (df : List Row) :
    (∀ p, p ∈ (contract_type_by_category df).1 →
      0 < catTotalSpend df p.1 → ((p.2.map Prod.snd).sum = 100)) ∧
    List.Pairwise (fun a b => catTotalSpend df a ≤ catTotalSpend df b)
      (contract_type_by_category df).2 ∧
    List.Perm (contract_type_by_category df).2
      ((df.map Row.spend_category).dedup) := by
  refine ⟨?_, ?_, List.mergeSort_perm _ _⟩
  · rintro ⟨c, mix⟩ hp hpos
    simp only [contract_type_by_category, List.mem_map, Prod.mk.injEq] at hp
    rcases hp with ⟨c', hc', rfl, rfl⟩
    have hT : catTotalSpend df c' ≠ 0 := ne_of_gt hpos
    have hfib : ((contractTypesOf df c').map
        (fun ct => ctSpend df c' ct)).sum = catTotalSpend df c' :=
      fiber_sum Row.contract_type Row.total_amount (catRows df c')
        (contractTypesOf df c') (List.nodup_dedup _)
        (fun r hr => List.mem_dedup.mpr (List.mem_map_of_mem Row.contract_type hr))
    have hlin : ∀ ct, ctPct df c' ct
        = ctSpend df c' ct * (100 / catTotalSpend df c') := by
      intro ct
      unfold ctPct
      ring
    calc (((contractTypesOf df c').map
            (fun ct => (ct, ctPct df c' ct))).map Prod.snd).sum
        = ((contractTypesOf df c').map (fun ct => ctPct df c' ct)).sum := by
          rw [List.map_map]
          rfl
      _ = ((contractTypesOf df c').map
            (fun ct => ctSpend df c' ct * (100 / catTotalSpend df c'))).sum := by
          simp only [hlin]
      _ = ((contractTypesOf df c').map (fun ct => ctSpend df c' ct)).sum
            * (100 / catTotalSpend df c') := List.sum_map_mul_right _ _ _
      _ = catTotalSpend df c' * (100 / catTotalSpend df c') := by rw [hfib]
      _ = 100 := by field_simp
  · have h := @List.sorted_mergeSort String
      (fun a b => decide (catTotalSpend df a ≤ catTotalSpend df b))
      (fun a b c hab hbc => by
        simp only [decide_eq_true_iff] at *
        exact le_trans hab hbc)
      (fun a b => by
        rcases le_total (catTotalSpend df a) (catTotalSpend df b) with h | h <;>
          simp [h])
      ((df.map Row.spend_category).dedup)
    exact h.imp (fun hab => decide_eq_true_iff.mp hab)

end Dashboard
